import Mathlib

/-!
Shallow embedding of `src/kernel/src/memory/physical_memory/static_linear_allocator.rs`
(the `toast` kernel's physical frame allocator) and proofs about it.

Machine integers (`usize`/`u64`) are modelled as `Nat`: all the arithmetic in the
source (byte counts, frame indices, addresses) stays far below `2^64` on every
input considered here, so no wrap-around is modelled.  Raw-pointer state is made
explicit: each `PmmModule`'s bitmap buffer is a `List Nat` of its bytes (each
byte `< 256`), and the singly linked `next` chain of modules is a `List PmmModule`
in chain order.  A Rust function that can `panic!`/`todo!` returns `PanicOr`.
-/

namespace Toast

/-- Modelled from the spec: `PAGE_SIZE` lives in `crate::memory`, which is not in
the sources at hand.  The spec's scenario (§8: region of length `0x4000` "4 frames")
fixes the frame granularity at `0x1000` bytes. -/
def PAGE_SIZE : Nat := 4096

/-- Rust's `Nat::div_ceil`: `(a + b - 1) / b` for `b > 0`, and `a.div_ceil b = 0`
when `a = 0`. -/
def divCeil (a b : Nat) : Nat := (a + b - 1) / b

/-- One firmware memory-map entry (`limine::memory_map::Entry`): base address,
byte length, and whether `entry_type == EntryType::USABLE`. -/
structure Entry where
  base : Nat
  length : Nat
  usable : Bool
  deriving DecidableEq, Inhabited

/-- `size_of::<PmmModule>()`.  The record's fields are `start_address: usize` (8),
`bitmap_size: usize` (8), `bitmap_entry_count: usize` (8), `last_free: Option<usize>`
(16: no niche for `usize`), `bitmap: *mut u8` (8), `next: Option<*mut PmmModule>`
(16: raw pointers may be null, so no niche), totalling 64 bytes at alignment 8. -/
def pmmModuleSize : Nat := 64

/-- The logical state of one `PmmModule` (region tracker).  The `next` raw pointer
is represented by the module's position in the allocator's module list. -/
structure PmmModule where
  start_address : Nat
  bitmap_size : Nat
  bitmap_entry_count : Nat
  last_free : Option Nat
  bitmap : List Nat
  deriving DecidableEq, Inhabited

/-- Reading bit `i` of the bitmap the way the source does: byte `i / 8`, bit
position `7 - i % 8` counted from the least significant bit (`Bit::bit`).
`true` means the bit is 1 (allocated). -/
def PmmModule.bitAt (m : PmmModule) (i : Nat) : Bool :=
  Nat.testBit (m.bitmap.getD (i / 8) 0) (7 - i % 8)

/-- `PmmModule::init`: computes `frame_count = size.div_ceil(PAGE_SIZE)`, sizes the
bitmap at `frame_count.div_ceil(8)` bytes, zero-fills it (`memset`), and sets
`last_free = Some(0)`. -/
def PmmModule.init (start_address size : Nat) : PmmModule :=
  let frame_count := divCeil size PAGE_SIZE
  { start_address := start_address
    bitmap_size := divCeil frame_count 8
    bitmap_entry_count := frame_count
    last_free := some 0
    bitmap := List.replicate (divCeil frame_count 8) 0 }

/-- The rescan loop of `PmmModule::allocate_frames`
(`for i in bit_base..self.bitmap_entry_count { ... }`): the first index
`i ∈ [start, start + fuel)` whose bitmap bit is SET (`Bit::bit(...) == true`),
or `none` when the loop finishes without a `break`. -/
def findSetBitFrom (m : PmmModule) (start fuel : Nat) : Option Nat :=
  match fuel with
  | 0 => none
  | fuel + 1 => if m.bitAt start then some start else findSetBitFrom m (start + 1) fuel

/-- The value `last_free` holds after the rescan loop of
`PmmModule::allocate_frames`: on a `break` the source assigns
`Some(bit_base + i)` (where `i` already starts at `bit_base`); if the loop ends
without finding a set bit, `last_free` is left unchanged. -/
def rescanHint (m : PmmModule) (bit_base : Nat) : Option Nat :=
  match findSetBitFrom m bit_base (m.bitmap_entry_count - bit_base) with
  | some i => some (bit_base + i)
  | none => m.last_free

/-- `PmmModule::allocate_frames(count)` (the `count` argument is never read by the
body).  Note that the source's marking step
`unsafe { *self.bitmap.add(byte_index) }.set_bit(bit_index, true)` calls `set_bit`
on a dereferenced COPY of the byte — a temporary — so the bitmap buffer itself is
left unchanged; only `last_free` and the return value are produced. -/
def PmmModule.allocate_frames (m : PmmModule) (_count : Nat) : Option Nat × PmmModule :=
  match m.last_free with
  | some last_free =>
    let alloc := m.start_address + last_free * PAGE_SIZE
    let bit_base := (alloc - m.start_address) / PAGE_SIZE
    (some alloc, { m with last_free := rescanHint m bit_base })
  | none => (none, m)

/-- Result of a Rust computation that may `panic!` (including `todo!` and
`Option::unwrap` on `None`). -/
inductive PanicOr (α : Type) where
  | panics
  | returns (val : α)
  deriving DecidableEq

/-- The allocator: owner of the module chain, root first. -/
structure StaticLinearAllocator where
  modules : List PmmModule
  deriving DecidableEq, Inhabited

/-- The `buffer_size` fold of `StaticLinearAllocator::new`: over the usable
entries, accumulate `size_of::<PmmModule>() * 2` plus
`entry.length.div_ceil(PAGE_SIZE).div_ceil(8)` bitmap bytes. -/
def bufferSize (regions : List Entry) : Nat :=
  (regions.filter (·.usable)).foldl
    (fun acc e => acc + pmmModuleSize * 2 + divCeil (divCeil e.length PAGE_SIZE) 8) 0

/-- Stated from the claim's words, for comparison with `bufferSize`: the sum over
usable regions of two Tracker-record sizes plus
`ceil(ceil(length / PAGE_SIZE) / 8)` bitmap bytes. -/
def specMetadataSize (regions : List Entry) : Nat :=
  ((regions.filter (·.usable)).map
    (fun e => 2 * pmmModuleSize + divCeil (divCeil e.length PAGE_SIZE) 8)).sum

/-- The `containing_entry` search of `StaticLinearAllocator::new`:
`memory_regions.iter().enumerate().find(...)` — the FIRST entry of the full report
list that is usable and at least `buffer_size` long, together with its index in
the FULL (unfiltered) list. -/
def findContaining (regions : List Entry) (bs : Nat) : Option (Nat × Entry) :=
  regions.enum.find? fun p => p.2.usable && decide (bs ≤ p.2.length)

/-- The module-construction loop of `StaticLinearAllocator::new`: one freshly
initialized `PmmModule` per usable region, in report order, each linked as the
`next` of the previous one (list order = chain order). -/
def mkModules (regions : List Entry) : List PmmModule :=
  (regions.filter (·.usable)).map fun e => PmmModule.init e.base e.length

/-- The bitmap marking done by `StaticLinearAllocator::allocate_self_memory` on
the containing module: writes `0xFF` to bytes `[0, frame_count / 8)` and then the
byte value `(1 << frame_count % 8) - 1` to byte `frame_count / 8`, where
`frame_count = buffer_size.div_ceil(PAGE_SIZE)`.  (`List.set` ignores an
out-of-range index; the source would write one byte past the bitmap in that case,
which never happens on the inputs considered here.) -/
def markSelfMemory (m : PmmModule) (buffer_size : Nat) : PmmModule :=
  let frame_count := divCeil buffer_size PAGE_SIZE
  let byte_count := frame_count / 8
  let bit_count := frame_count % 8
  let bm := (List.range byte_count).foldl (fun b i => b.set i 0xFF) m.bitmap
  { m with bitmap := bm.set byte_count ((1 <<< bit_count) - 1) }

/-- `StaticLinearAllocator::allocate_self_memory(containing_region_number,
buffer_size)`: walks `containing_region_number` `next` links from the root —
panicking on `next.unwrap()` if the chain is shorter — and marks that module's
bitmap. -/
def allocate_self_memory (a : StaticLinearAllocator) (containing_region_number buffer_size : Nat) :
    PanicOr StaticLinearAllocator :=
  if h : containing_region_number < a.modules.length then
    PanicOr.returns
      ⟨a.modules.set containing_region_number
        (markSelfMemory (a.modules.get ⟨containing_region_number, h⟩) buffer_size)⟩
  else PanicOr.panics

/-- The error string of `StaticLinearAllocator::new` (the spec's
`NoSuitableRegion`). -/
def noSuitableRegionMsg : String := "pmm: could not find a suitable memory region to hold the pmm"

/-- The error string of `allocate_frame` (the spec's `OutOfMemory`). -/
def outOfMemoryMsg : String := "pmm: could not allocate frame (memory full)"

/-- `StaticLinearAllocator::new`: size the metadata, find the containing entry
(`Err` if none), build one module per usable region, then reserve the allocator's
own memory.  The direct-map translation (`HHDM_OFFSET`, `align_up`) only produces
the virtual address of the metadata buffer, which has no observable effect on the
logical module states, so it is not modelled.  The index passed to
`allocate_self_memory` is the entry's index in the FULL report list, while the
chain only holds modules for USABLE entries. -/
def StaticLinearAllocator.new (regions : List Entry) :
    PanicOr (Except String StaticLinearAllocator) :=
  let bs := bufferSize regions
  match findContaining regions bs with
  | none => PanicOr.returns (Except.error noSuitableRegionMsg)
  | some containing =>
    match allocate_self_memory ⟨mkModules regions⟩ containing.1 bs with
    | PanicOr.panics => PanicOr.panics
    | PanicOr.returns a => PanicOr.returns (Except.ok a)

/-- Modelled from the spec: `Frame::containing_address` lives in
`crate::memory::physical_memory`, not in the sources at hand.  Per the spec a
Frame is "derived by rounding a PhysicalAddress down to page granularity" and
carries that page-aligned address. -/
def Frame.containing_address (addr : Nat) : Nat := addr / PAGE_SIZE * PAGE_SIZE

/-- The chain walk of `StaticLinearAllocator::allocate_frame`: try
`allocate_frames(1)` on each module in order; first `Some` wins; `Err` after the
last module. -/
def allocChain : List PmmModule → Except String Nat × List PmmModule
  | [] => (Except.error outOfMemoryMsg, [])
  | m :: rest =>
    match m.allocate_frames 1 with
    | (some alloc, m') => (Except.ok (Frame.containing_address alloc), m' :: rest)
    | (none, m') =>
      let r := allocChain rest
      (r.1, m' :: r.2)

/-- `StaticLinearAllocator::allocate_frame` (from the `FrameAllocator` impl). -/
def StaticLinearAllocator.allocate_frame (a : StaticLinearAllocator) :
    Except String Nat × StaticLinearAllocator :=
  let r := allocChain a.modules
  (r.1, ⟨r.2⟩)

/-- `StaticLinearAllocator::deallocate_frame`: the body is `todo!()`, which
panics unconditionally. -/
def StaticLinearAllocator.deallocate_frame (_a : StaticLinearAllocator) (_frame : Nat) :
    PanicOr (Except String Unit) :=
  PanicOr.panics

/-- `n` successive `allocate_frame` calls, keeping only the final state. -/
def allocN (a : StaticLinearAllocator) : Nat → StaticLinearAllocator
  | 0 => a
  | n + 1 => allocN (a.allocate_frame).2 n

/-- `n` successive `allocate_frame` calls, collecting the results in order
together with the final state. -/
def allocList (a : StaticLinearAllocator) : Nat → List (Except String Nat) × StaticLinearAllocator
  | 0 => ([], a)
  | n + 1 =>
    let r := a.allocate_frame
    let rest := allocList r.2 n
    (r.1 :: rest.1, rest.2)

/-- The spec's §8 scenario: usable region A = base `0x100000`, length `0x4000`
(4 frames); usable region B = base `0x200000`, length `0x2000` (2 frames).
Metadata sizing gives `2 * (2 * 64) + 1 + 1 = 258` bytes, exactly 1 frame. -/
def scenarioRegions : List Entry := [⟨0x100000, 0x4000, true⟩, ⟨0x200000, 0x2000, true⟩]

/-- The allocator built from the spec's §8 scenario (construction succeeds). -/
def scenarioAlloc : StaticLinearAllocator :=
  match StaticLinearAllocator.new scenarioRegions with
  | PanicOr.returns (Except.ok a) => a
  | _ => ⟨[]⟩

/-- A single usable 1 GiB region.  Metadata sizing gives `128 + 32768 = 32896`
bytes = 9 frames, so `allocate_self_memory` writes a full `0xFF` first bitmap
byte: bit 0 becomes 1 while `last_free` stays `Some(0)`. -/
def c1Regions : List Entry := [⟨0x100000, 0x40000000, true⟩]

/-- The allocator built from `c1Regions` (construction succeeds). -/
def c1Alloc : StaticLinearAllocator :=
  match StaticLinearAllocator.new c1Regions with
  | PanicOr.returns (Except.ok a) => a
  | _ => ⟨[]⟩

/-- A freshly initialized tracker over a 2-frame region. -/
def c2Module : PmmModule := PmmModule.init 0x100000 8192

/-- A freshly initialized tracker over a 1-frame region (capacity N = 1). -/
def c6Module : PmmModule := PmmModule.init 0x100000 4096

/-- `allocate_frames` never writes the bitmap buffer (the `set_bit` acts on a
temporary copy; the rescan loop only reads). -/
theorem allocate_frames_bitmap (m : PmmModule) (c : Nat) :
    (m.allocate_frames c).2.bitmap = m.bitmap := by
  cases h : m.last_free <;> simp [PmmModule.allocate_frames, h]

/-- The rescan either finds a set bit (and stores `some`) or leaves `last_free`
unchanged; from a `some` hint it can therefore never produce `none`. -/
theorem rescanHint_isSome (m : PmmModule) (b : Nat)
    (h : m.last_free.isSome = true) : (rescanHint m b).isSome = true := by
  unfold rescanHint
  cases hf : findSetBitFrom m b (m.bitmap_entry_count - b)
  · simpa [hf] using h
  · simp [hf]

/-- Shape of `allocate_frames` when the hint is `some k`. -/
theorem allocate_frames_of_some (m : PmmModule) (c k : Nat) (h : m.last_free = some k) :
    m.allocate_frames c =
      (some (m.start_address + k * PAGE_SIZE),
       { m with last_free :=
          rescanHint m ((m.start_address + k * PAGE_SIZE - m.start_address) / PAGE_SIZE) }) := by
  simp [PmmModule.allocate_frames, h]

/-- One `allocate_frame` call on a chain of modules that all hold a `some` hint
succeeds and preserves that property. -/
theorem allocate_frame_step (a : StaticLinearAllocator)
    (hne : a.modules ≠ [])
    (hall : ∀ m ∈ a.modules, m.last_free.isSome = true) :
    (∃ v, (a.allocate_frame).1 = Except.ok v)
    ∧ (a.allocate_frame).2.modules ≠ []
    ∧ (∀ m ∈ (a.allocate_frame).2.modules, m.last_free.isSome = true) := by
  obtain ⟨ms⟩ := a
  match ms, hne with
  | m :: rest, _ =>
    have hm := hall m (List.mem_cons_self m rest)
    obtain ⟨k, hk⟩ := Option.isSome_iff_exists.mp hm
    have hchain : allocChain (m :: rest)
        = (Except.ok (Frame.containing_address (m.start_address + k * PAGE_SIZE)),
           { m with last_free :=
              rescanHint m ((m.start_address + k * PAGE_SIZE - m.start_address) / PAGE_SIZE) }
             :: rest) := by
      simp [allocChain, allocate_frames_of_some m 1 k hk]
    refine ⟨⟨Frame.containing_address (m.start_address + k * PAGE_SIZE), ?_⟩, ?_, ?_⟩
    · show (allocChain (m :: rest)).1 = _
      rw [hchain]
    · show ({ modules := (allocChain (m :: rest)).2 } : StaticLinearAllocator).modules ≠ []
      rw [hchain]
      simp
    · show ∀ m' ∈ ({ modules := (allocChain (m :: rest)).2 } : StaticLinearAllocator).modules, _
      rw [hchain]
      intro m' hm'
      rcases List.mem_cons.mp hm' with rfl | hmem
      · exact rescanHint_isSome m _ hm
      · exact hall m' (List.mem_cons_of_mem m hmem)

/-- Every module built by the construction loop starts with `last_free = Some 0`. -/
theorem mkModules_last_free (regions : List Entry) :
    ∀ m ∈ mkModules regions, m.last_free = some 0 := by
  intro m hm
  obtain ⟨e, _, rfl⟩ := List.mem_map.mp hm
  rfl

/-- `markSelfMemory` only rewrites bitmap bytes; the hint is untouched. -/
theorem markSelfMemory_last_free (m : PmmModule) (b : Nat) :
    (markSelfMemory m b).last_free = m.last_free := rfl

/-- A successfully constructed allocator has a nonempty chain whose modules all
hold a `some` hint. -/
theorem new_inv (regions : List Entry) (a : StaticLinearAllocator)
    (h : StaticLinearAllocator.new regions = PanicOr.returns (Except.ok a)) :
    a.modules ≠ [] ∧ ∀ m ∈ a.modules, m.last_free.isSome = true := by
  simp only [StaticLinearAllocator.new] at h
  split at h
  · simp at h
  · rename_i containing hfc
    split at h
    · simp at h
    · rename_i a' hasm
      simp only [PanicOr.returns.injEq, Except.ok.injEq] at h
      subst h
      unfold allocate_self_memory at hasm
      by_cases hlt :
          containing.1 < (⟨mkModules regions⟩ : StaticLinearAllocator).modules.length
      · rw [dif_pos hlt] at hasm
        simp only [PanicOr.returns.injEq] at hasm
        subst hasm
        constructor
        · intro hnil
          have hlen := congrArg List.length hnil
          simp only [List.length_set, List.length_nil] at hlen
          simp only [hlen] at hlt
          exact Nat.not_lt_zero _ hlt
        · intro m hm
          rcases List.mem_or_eq_of_mem_set hm with hmem | rfl
          · rw [mkModules_last_free regions m hmem]; rfl
          · rw [markSelfMemory_last_free,
              mkModules_last_free regions _ (List.get_mem _ _ _)]
            rfl
      · rw [dif_neg hlt] at hasm
        simp at hasm

/-- The chain stays nonempty and all-`some` under any number of
`allocate_frame` calls. -/
theorem allocN_inv (n : Nat) (a : StaticLinearAllocator)
    (hne : a.modules ≠ []) (hall : ∀ m ∈ a.modules, m.last_free.isSome = true) :
    (allocN a n).modules ≠ [] ∧ ∀ m ∈ (allocN a n).modules, m.last_free.isSome = true := by
  induction n generalizing a with
  | zero => exact ⟨hne, hall⟩
  | succ n ih =>
    obtain ⟨_, h2, h3⟩ := allocate_frame_step a hne hall
    exact ih _ h2 h3

/-- `foldl` of a constant-plus-summand body equals the sum of a map. -/
theorem foldl_add_const_map (c : Nat) (g : Entry → Nat) (l : List Entry) (acc : Nat) :
    l.foldl (fun a e => a + c + g e) acc = acc + (l.map fun e => c + g e).sum := by
  induction l generalizing acc with
  | nil => simp
  | cons e t ih =>
    show List.foldl _ (acc + c + g e) t = _
    rw [ih (acc + c + g e), List.map_cons, List.sum_cons]
    omega

/-- The code's `buffer_size` fold computes exactly the claim's sum. -/
theorem bufferSize_eq_specMetadataSize (regions : List Entry) :
    bufferSize regions = specMetadataSize regions := by
  unfold bufferSize specMetadataSize
  rw [foldl_add_const_map (pmmModuleSize * 2) (fun e => divCeil (divCeil e.length PAGE_SIZE) 8)]
  simp [Nat.mul_comm]

/-- Searching an enumerated list with a predicate on the payload finds the same
element as searching the plain list. -/
theorem find_enumFrom_snd (Q : Entry → Bool) (l : List Entry) (n : Nat) :
    ((List.enumFrom n l).find? fun p => Q p.2).map Prod.snd = l.find? Q := by
  induction l generalizing n with
  | nil => rfl
  | cons a t ih =>
    show ((((n, a) :: List.enumFrom (n + 1) t).find? fun p => Q p.2).map Prod.snd
      = (a :: t).find? Q)
    cases hq : Q a with
    | true =>
      rw [List.find?_cons_of_pos _ (by simpa using hq), List.find?_cons_of_pos _ hq]
      rfl
    | false =>
      rw [List.find?_cons_of_neg _ (by simpa using hq), ih,
        List.find?_cons_of_neg _ (by simp [hq])]

/-- Searching for a conjunction equals filtering by the first conjunct and
searching for the second. -/
theorem find_and_eq_find_filter (p q : Entry → Bool) (l : List Entry) :
    l.find? (fun e => p e && q e) = (l.filter p).find? q := by
  induction l with
  | nil => rfl
  | cons a t ih =>
    cases hp : p a with
    | false =>
      rw [List.find?_cons_of_neg _ (by simp [hp]), List.filter_cons, if_neg (by simp [hp]), ih]
    | true =>
      cases hq : q a with
      | false =>
        rw [List.find?_cons_of_neg _ (by simp [hp, hq]), List.filter_cons, if_pos hp,
          List.find?_cons_of_neg _ (by simp [hq]), ih]
      | true =>
        rw [List.find?_cons_of_pos _ (by simp [hp, hq]), List.filter_cons, if_pos hp,
          List.find?_cons_of_pos _ hq]

/-- C1: claimed — whenever a reachable tracker's `last_free` is `Some i`, bit `i`
of the bitmap is 0.  Refuted on the code: after constructing over `c1Regions`
(init followed by the bootstrap `mark_range_allocated`), the tracker has
`last_free = Some 0` while bit 0 of its bitmap is 1, because
`allocate_self_memory` never refreshes the hint after setting the bits. -/
theorem C1_free_hint_invariant_fails :
    StaticLinearAllocator.new c1Regions = PanicOr.returns (Except.ok c1Alloc)
    ∧ (c1Alloc.modules.getD 0 default).last_free = some 0
    ∧ (c1Alloc.modules.getD 0 default).bitAt 0 = true := by
  refine ⟨rfl, ?_, ?_⟩ <;> decide

/-- C2: claimed — `allocate_one` with `free_hint = Some i` sets bit `i` of the
bitmap to 1 and moves `free_hint` to the first 0 bit at or after `i` (or `None`).
Refuted on the code at a fresh 2-frame tracker: the call returns the right
address, but the bitmap is left all-zero (the `set_bit` acts on a dereferenced
copy of the byte) and `free_hint` stays `Some 0` instead of becoming `Some 1`. -/
theorem C2_allocate_one_mutation_fails :
    (c2Module.allocate_frames 1).1 = some 0x100000
    ∧ (c2Module.allocate_frames 1).2.bitmap = c2Module.bitmap
    ∧ (c2Module.allocate_frames 1).2.bitAt 0 = false
    ∧ (c2Module.allocate_frames 1).2.last_free = some 0 := by
  refine ⟨?_, ?_, ?_, ?_⟩ <;> decide

/-- C3: claimed — on the §8 scenario the first five `allocate_frame` calls return
`0x101000, 0x102000, 0x103000, 0x200000, 0x201000` and the sixth returns
`OutOfMemory`.  Refuted on the code: all six calls return `0x100000` (the
self-reserved frame 0 of region A), because the allocation never writes the
bitmap and the hint never advances. -/
theorem C3_scenario_returns_frame_zero_forever :
    StaticLinearAllocator.new scenarioRegions = PanicOr.returns (Except.ok scenarioAlloc)
    ∧ (allocList scenarioAlloc 6).1 = List.replicate 6 (Except.ok 0x100000) := by
  exact ⟨rfl, rfl⟩

/-- C5: claimed — self-reservation sets exactly the bits for frame indices
`[0, ceil(total_metadata_size / PAGE_SIZE)) = [0, 1)` on the host tracker, and no
frame of that range is ever returned by `allocate_frame`.  Refuted on the code at
the §8 scenario: the host tracker's bitmap byte becomes `0x01`, i.e. frame
index 7 is marked (the `(1 << bit_count) - 1` mask addresses bits from the least
significant end while the bitmap is read most-significant-first), frame 0 stays
unmarked, and the very first `allocate_frame` returns `0x100000` — frame 0 of the
reserved range. -/
theorem C5_self_reservation_marks_wrong_bits :
    StaticLinearAllocator.new scenarioRegions = PanicOr.returns (Except.ok scenarioAlloc)
    ∧ (scenarioAlloc.modules.getD 0 default).bitmap = [0x01]
    ∧ (scenarioAlloc.modules.getD 0 default).bitAt 0 = false
    ∧ (scenarioAlloc.modules.getD 0 default).bitAt 7 = true
    ∧ (scenarioAlloc.allocate_frame).1 = Except.ok 0x100000 := by
  refine ⟨rfl, by decide, by decide, by decide, rfl⟩

/-- C6: claimed — a fresh tracker of capacity N satisfies: N successful
`allocate_one` calls, then the (N+1)th returns `None`.  Refuted on the code at
N = 1: the second call still returns `Some 0x100000` (the hint never becomes
`None` because the rescan looks for a SET bit in a bitmap that is never
written). -/
theorem C6_no_exhaustion_at_capacity_one :
    (c6Module.allocate_frames 1).1 = some 0x100000
    ∧ ((c6Module.allocate_frames 1).2.allocate_frames 1).1 = some 0x100000 := by
  exact ⟨by decide, by decide⟩

/-- C7: claimed — `deallocate_frame` scans the chain, returns `InvalidFrame` when
no tracker contains the frame, and delegates to a tracker-level deallocation with
`OutOfRange`/`DoubleFree` errors.  Refuted on the code: the body is `todo!()`, so
on the §8 scenario allocator even an out-of-range frame address panics instead of
producing `InvalidFrame`. -/
theorem C7_deallocate_contract_absent :
    scenarioAlloc.deallocate_frame 0x300000 = PanicOr.panics := rfl

/-- C4: the computed `buffer_size` equals the claim's sum over usable regions of
two Tracker-record sizes plus `ceil(ceil(length / PAGE_SIZE) / 8)` bitmap bytes;
the containing-entry search selects the first usable region in report order whose
length is at least that total; and construction returns the `NoSuitableRegion`
error exactly when no usable region qualifies. -/
theorem C4_sizing_and_selection (regions : List Entry) :
    bufferSize regions = specMetadataSize regions
    ∧ (findContaining regions (bufferSize regions)).map Prod.snd
        = (regions.filter (·.usable)).find? (fun e => decide (bufferSize regions ≤ e.length))
    ∧ (StaticLinearAllocator.new regions = PanicOr.returns (Except.error noSuitableRegionMsg)
        ↔ (regions.filter (·.usable)).find?
            (fun e => decide (bufferSize regions ≤ e.length)) = none) := by
  have hsel : (findContaining regions (bufferSize regions)).map Prod.snd
      = (regions.filter (·.usable)).find? (fun e => decide (bufferSize regions ≤ e.length)) := by
    show ((List.enumFrom 0 regions).find?
        (fun p => p.2.usable && decide (bufferSize regions ≤ p.2.length))).map Prod.snd = _
    rw [find_enumFrom_snd (fun e => e.usable && decide (bufferSize regions ≤ e.length)),
      find_and_eq_find_filter]
  refine ⟨bufferSize_eq_specMetadataSize regions, hsel, ?_⟩
  cases hfc : findContaining regions (bufferSize regions) with
  | none =>
    have hr : (regions.filter (·.usable)).find?
        (fun e => decide (bufferSize regions ≤ e.length)) = none := by
      rw [← hsel, hfc]; rfl
    rw [hr]
    simp only [iff_true]
    simp [StaticLinearAllocator.new, hfc]
  | some containing =>
    have hr : (regions.filter (·.usable)).find?
        (fun e => decide (bufferSize regions ≤ e.length)) = some containing.2 := by
      rw [← hsel, hfc]; rfl
    rw [hr]
    constructor
    · intro hnew
      simp only [StaticLinearAllocator.new, hfc] at hnew
      cases hasm : allocate_self_memory ⟨mkModules regions⟩ containing.1 (bufferSize regions) with
      | panics => rw [hasm] at hnew; simp at hnew
      | returns a' => rw [hasm] at hnew; simp at hnew
    · intro hcontra
      simp at hcontra

/-- C8: for an allocator produced by a successful construction, any number of
`allocate_frame` calls leaves every module's `last_free` equal to `Some _`
(`init` writes `Some(0)` and `allocate_frames` never assigns `None`), and hence
the next `allocate_frame` never returns the out-of-memory error. -/
theorem C8_hint_always_some (regions : List Entry) (a : StaticLinearAllocator)
    (h : StaticLinearAllocator.new regions = PanicOr.returns (Except.ok a)) (n : Nat) :
    (∀ m ∈ (allocN a n).modules, m.last_free.isSome = true)
    ∧ ∃ v, ((allocN a n).allocate_frame).1 = Except.ok v := by
  obtain ⟨hne, hall⟩ := new_inv regions a h
  obtain ⟨hne', hall'⟩ := allocN_inv n a hne hall
  exact ⟨hall', (allocate_frame_step _ hne' hall').1⟩

/-- Witness for C8 at the §8 scenario after two allocations. -/
theorem C8_hint_always_some_witness :
    (∀ m ∈ (allocN scenarioAlloc 2).modules, m.last_free.isSome = true)
    ∧ ∃ v, ((allocN scenarioAlloc 2).allocate_frame).1 = Except.ok v :=
  C8_hint_always_some scenarioRegions scenarioAlloc rfl 2

/-- C9: `allocate_frame` never changes any tracker's bitmap bytes: the
bit-setting step of `allocate_frames` operates on a dereferenced copy of the
bitmap byte, and the rescan loop only reads. -/
theorem C9_allocate_frame_preserves_bitmaps (a : StaticLinearAllocator) :
    (a.allocate_frame).2.modules.map PmmModule.bitmap = a.modules.map PmmModule.bitmap := by
  obtain ⟨ms⟩ := a
  show ((allocChain ms).2.map PmmModule.bitmap) = ms.map PmmModule.bitmap
  induction ms with
  | nil => rfl
  | cons m rest ih =>
    cases hk : m.last_free with
    | some k => simp [allocChain, allocate_frames_of_some m 1 k hk]
    | none => simp [allocChain, PmmModule.allocate_frames, hk, ih]

/-- C10: `deallocate_frame` never returns any `Result`: for every constructed
allocator and every frame argument the call panics, because the body is
`todo!()`. -/
theorem C10_deallocate_frame_always_panics (regions : List Entry) (a : StaticLinearAllocator)
    (h : StaticLinearAllocator.new regions = PanicOr.returns (Except.ok a)) (frame : Nat) :
    a.deallocate_frame frame = PanicOr.panics := rfl

/-- Witness for C10 at the §8 scenario allocator and frame `0x100000`. -/
theorem C10_deallocate_frame_always_panics_witness :
    scenarioAlloc.deallocate_frame 0x100000 = PanicOr.panics :=
  C10_deallocate_frame_always_panics scenarioRegions scenarioAlloc rfl 0x100000

end Toast
